import Mathlib

/-!
Shallow embedding of the DevMate AI code reviewer pipeline
(`app.py`, `llm_agent.py`, `analyzer.py`, `reporter.py`).

Python machine floats that arise from parsing short decimal literals are
modelled as exact decimals over the integers (with the final scores as
exact rationals); Python exceptions are modelled with `Option`
and `Except`; external effects (the chat-completion endpoint, subprocess
output, JSON parsing, PDF rendering, the SQL store) are modelled as
explicit environment parameters and state threading.
-/

namespace DevMate

/-! ### Python string primitives -/

/-- Whitespace characters recognised by Python `str.split()` with no
arguments. -/
def isPySpace (c : Char) : Bool :=
  c = ' ' || c = '\t' || c = '\n' || c = '\r' || c = '\x0b' || c = '\x0c'

/-- Accumulator-based tokenizer: maximal runs of non-whitespace characters. -/
def splitAux : List Char → List Char → List (List Char)
  | [], acc => if acc.isEmpty then [] else [acc.reverse]
  | c :: cs, acc =>
    if isPySpace c then
      if acc.isEmpty then splitAux cs [] else acc.reverse :: splitAux cs []
    else splitAux cs (c :: acc)

/-- Model of Python `str.split()` (no separator: split on whitespace runs,
dropping empty tokens). -/
def pySplit (s : String) : List String :=
  (splitAux s.toList []).map String.mk

/-- Helper for substring search over character lists. -/
def containsAux (needle : List Char) : List Char → Bool
  | [] => needle.isEmpty
  | c :: cs => needle.isPrefixOf (c :: cs) || containsAux needle cs

/-- Model of Python `needle in hay` on strings. -/
def strContains (hay needle : String) : Bool :=
  containsAux needle.toList hay.toList

/-- Model of Python `str.strip(chars)`: remove characters of the set from
both ends (NOT suffix removal). -/
def stripChars (s : String) (cs : List Char) : String :=
  String.mk (((s.toList.dropWhile (· ∈ cs)).reverse.dropWhile (· ∈ cs)).reverse)

/-- Model of Python `str.replace(".", "", 1)`: remove the first dot only. -/
def removeFirstDot : List Char → List Char
  | [] => []
  | c :: cs => if c = '.' then cs else c :: removeFirstDot cs

/-- Model of Python `str.isdigit()` restricted to ASCII digits (the only
digits that can both pass this guard and later parse as a float in the
inputs this pipeline handles). -/
def isDigitStr (l : List Char) : Bool :=
  !l.isEmpty && l.all Char.isDigit

/-- Model of Python `str.lower()` (ASCII case folding, which is all the
retry classifier and hint matcher need). -/
def pyToLower (s : String) : String :=
  String.mk (s.toList.map Char.toLower)

/-- Model of Python `str.strip()` with no arguments: remove whitespace
from both ends. -/
def pyStripWs (s : String) : String :=
  String.mk (((s.toList.dropWhile isPySpace).reverse.dropWhile isPySpace).reverse)

/-- Model of Python `str.startswith(pre)`. -/
def pyStartsWith (s pre : String) : Bool :=
  pre.toList.isPrefixOf s.toList

/-- One pass of Python `str.replace(pat, rep)` over a character list:
replace every non-overlapping occurrence, left to right. -/
def replaceAll (pat rep : List Char) : List Char → List Char
  | [] => []
  | c :: cs =>
    if pat.isPrefixOf (c :: cs) && !pat.isEmpty then
      rep ++ replaceAll pat rep (cs.drop (pat.length - 1))
    else c :: replaceAll pat rep cs
termination_by l => l.length
decreasing_by
  · simp
    omega
  · simp

/-- Model of Python `str.replace(pat, rep)` (replaces all occurrences). -/
def pyReplace (s pat rep : String) : String :=
  String.mk (replaceAll pat.toList rep.toList s.toList)

/-! ### Python `float()` on decimal literals, as exact decimals -/

/-- An exact finite decimal value `m * 10 ^ e`, the result of parsing a
decimal literal. Kept in integer form so that every operation below is
kernel-computable. -/
structure Dec where
  m : ℤ
  e : ℤ
  deriving DecidableEq

/-- The rational value denoted by a `Dec`. -/
def Dec.toRat (d : Dec) : ℚ :=
  (d.m : ℚ) * (10 : ℚ) ^ d.e

/-- Numeric value of a list of ASCII digits. -/
def digitsToNat (l : List Char) : ℕ :=
  l.foldl (fun a c => a * 10 + (c.toNat - 48)) 0

/-- Parse an optional sign, as `+1`/`-1`. -/
def parseSign : List Char → ℤ × List Char
  | '+' :: r => (1, r)
  | '-' :: r => (-1, r)
  | l => (1, l)

/-- Parse the exponent part after the mantissa; returns the exponent when
the remaining input is exactly a well-formed exponent (or empty). -/
def parseExp : List Char → Option ℤ
  | [] => some 0
  | c :: r =>
    if c = 'e' || c = 'E' then
      let (es, r1) := parseSign r
      let ds := r1.takeWhile Char.isDigit
      let r2 := r1.dropWhile Char.isDigit
      if ds.isEmpty || !r2.isEmpty then none
      else some (es * (digitsToNat ds : ℤ))
    else none

/-- Model of Python `float(str)` on finite decimal literals, as an exact
decimal. `inf`, `nan` and digit-group underscores are mapped to `none`;
inside `extract_score` this is observationally equivalent because
non-finite values never satisfy `0 < v <= 10` and underscored literals
cannot survive the surrounding guards with an in-range value. -/
def pyFloat (s : String) : Option Dec :=
  let (sgn, l1) := parseSign s.toList
  let ip := l1.takeWhile Char.isDigit
  let l2 := l1.dropWhile Char.isDigit
  match l2 with
  | '.' :: r =>
    let fp := r.takeWhile Char.isDigit
    let l3 := r.dropWhile Char.isDigit
    if ip.isEmpty && fp.isEmpty then none
    else
      match parseExp l3 with
      | some ex =>
        some ⟨sgn * ((digitsToNat ip : ℤ) * (10 : ℤ) ^ fp.length + (digitsToNat fp : ℤ)),
              ex - (fp.length : ℤ)⟩
      | none => none
  | _ =>
    if ip.isEmpty then none
    else
      match parseExp l2 with
      | some ex => some ⟨sgn * (digitsToNat ip : ℤ), ex⟩
      | none => none

/-- Decide `0 < m * 10 ^ e`. -/
def Dec.isPos (d : Dec) : Bool :=
  0 < d.m

/-- Decide `m * 10 ^ e <= 10` by clearing the power of ten. -/
def Dec.le10 (d : Dec) : Bool :=
  if 0 ≤ d.e then d.m * (10 : ℤ) ^ d.e.toNat ≤ 10
  else d.m ≤ (10 : ℤ) ^ ((-d.e).toNat + 1)

/-- Round `m / D` half-to-even (floor division plus a half-way test). -/
def roundDivHE (m D : ℤ) : ℤ :=
  if 2 * m.fmod D < D then m.fdiv D
  else if D < 2 * m.fmod D then m.fdiv D + 1
  else if m.fdiv D % 2 = 0 then m.fdiv D else m.fdiv D + 1

/-- Python `round(value, 2)` on the exact decimal `m * 10 ^ e`, returned in
hundredths: round-half-to-even applied to `m * 10 ^ (e + 2)`. -/
def Dec.round2h (d : Dec) : ℤ :=
  if 0 ≤ d.e + 2 then d.m * (10 : ℤ) ^ (d.e + 2).toNat
  else roundDivHE d.m ((10 : ℤ) ^ (-(d.e + 2)).toNat)

/-! ### Python values and `extract_score` (`app.py`) -/

/-- A Python value as far as `extract_score` / `sanitize` can observe it. -/
inductive PyVal where
  | str (s : String)
  | int (n : ℤ)
  | bool (b : Bool)
  | noneV
  | list (xs : List PyVal)
  | dict (kvs : List (String × PyVal))

mutual

/-- Model of Python `repr` (only the shape matters downstream: string
escaping inside container reprs is not modelled). -/
def pyRepr : PyVal → String
  | .str s => "\u0027" ++ s ++ "\u0027"
  | .int n => toString n
  | .bool b => if b then "True" else "False"
  | .noneV => "None"
  | .list xs => "[" ++ String.intercalate ", " (pyReprList xs) ++ "]"
  | .dict kvs => "\x7b" ++ String.intercalate ", " (pyReprKVs kvs) ++ "\x7d"

/-- `repr` of each element of a list. -/
def pyReprList : List PyVal → List String
  | [] => []
  | x :: xs => pyRepr x :: pyReprList xs

/-- `repr` of each `key: value` pair of a dict. -/
def pyReprKVs : List (String × PyVal) → List String
  | [] => []
  | (k, v) :: xs => ("\u0027" ++ k ++ "\u0027" ++ ": " ++ pyRepr v) :: pyReprKVs xs

end

/-- Model of Python `str()`. -/
def pyStr : PyVal → String
  | .str s => s
  | v => pyRepr v

/-- Model of Python truthiness. -/
def pyTruthy : PyVal → Bool
  | .str s => !(s == "")
  | .int n => !(n == 0)
  | .bool b => b
  | .noneV => false
  | .list xs => !xs.isEmpty
  | .dict kvs => !kvs.isEmpty

/-- Model of Python `dict.get(key, default)` (first binding wins). -/
def dictGet (kvs : List (String × PyVal)) (k : String) (dflt : PyVal) : PyVal :=
  match kvs.find? (fun p => p.1 == k) with
  | some p => p.2
  | none => dflt

/-- The normalization prologue of `extract_score` (`app.py` lines 122-130):
list inputs are `" ".join`-ed (raising `TypeError`, modelled as `none`, when
a dict element has a non-string `"suggestion"` value), dict inputs take
`suggestion or result or str(dict)` (a truthy non-string later raises
`AttributeError` at `.split()`, modelled as `none`), everything else is
`str()`-ed. -/
def toText : PyVal → Option String
  | .list xs =>
    let parts := xs.map fun t =>
      match t with
      | .dict kvs => dictGet kvs "suggestion" (.str "")
      | other => .str (pyStr other)
    if parts.all (fun p => match p with | .str _ => true | _ => false) then
      some (String.intercalate " "
        (parts.map fun p => match p with | .str s => s | _ => ""))
    else none
  | .dict kvs =>
    let s1 := dictGet kvs "suggestion" (.str "")
    let v :=
      if pyTruthy s1 then s1
      else
        let s2 := dictGet kvs "result" (.str "")
        if pyTruthy s2 then s2 else .str (pyStr (.dict kvs))
    match v with
    | .str s => some s
    | _ => none
  | v => some (pyStr v)

/-- Per-token body of the `extract_score` loop (`app.py` lines 132-139):
guard (`"/10" in token or token.replace(".", "", 1).isdigit()`), then
`float(token.strip("/10"))` (`ValueError` gives `none` and the loop
continues), then the `0 < val <= 10` range filter with `round(val, 2)`. -/
def scoreOfToken (tok : String) : Option ℤ :=
  if strContains tok "/10" || isDigitStr (removeFirstDot tok.toList) then
    match pyFloat (stripChars tok ['/', '1', '0']) with
    | some v => if v.isPos && v.le10 then some v.round2h else none
    | none => none
  else none

/-- The token loop of `extract_score`: return at the first token whose
`scoreOfToken` value exists, else the default `7.5` (in hundredths). -/
def scanTokens : List String → ℤ
  | [] => 750
  | t :: ts =>
    match scoreOfToken t with
    | some v => v
    | none => scanTokens ts

/-- `extract_score` on an input that is already a string, in hundredths. -/
def extract_score_h (s : String) : ℤ :=
  scanTokens (pySplit s)

/-- `extract_score` on an input that is already a string, as the rational
score it denotes. -/
def extract_score_str (s : String) : ℚ :=
  (extract_score_h s : ℚ) / 100

/-- `extract_score` (`app.py` lines 120-140) on an arbitrary Python value;
`none` models an escaping exception. -/
def extract_score (v : PyVal) : Option ℚ :=
  (toText v).map extract_score_str

/-- Spec-side reformulation of the scan (for the refinement part of the
score-extraction claim): the value of the first qualifying token, else `7.5`. -/
def extract_score_spec (s : String) : ℚ :=
  ((((pySplit s).findSome? scoreOfToken).getD 750 : ℤ) : ℚ) / 100

/-! ### `llm_agent.py`: offline hints, the chat helper, the reasoning pass -/

/-- Outcome of one chat-completion API attempt: a reply text, or an
exception whose message is inspected for retry classification. -/
inductive ChatOutcome where
  | ok (s : String)
  | err (msg : String)

/-- The external chat endpoint: response to the `i`-th API attempt of the
process, given the user prompt sent. -/
def Oracle := ℕ → String → ChatOutcome

/-- Environment of the reasoning pass: whether a key is configured
(`USE_LLM`) and the behaviour of the endpoint. -/
structure LLMEnv where
  useLLM : Bool
  oracle : Oracle

/-- Observable state threaded through the reasoning pass: the remaining
budget (`llm_budget`, which the source lets go negative), the index of the
next API attempt, the number of `_chat` invocations, the number of API
attempts, the number of successful `_chat` invocations, the `time.sleep`
delays performed, and the user prompts sent. -/
structure LLMSt where
  budget : ℤ
  oidx : ℕ
  calls : ℕ
  attempts : ℕ
  succ : ℕ
  sleeps : List ℕ
  prompts : List String

/-- `offline_hint` (`llm_agent.py` lines 13-25): a rule-based hint keyed by
substrings of the lowercased message (`""` when the finding has no
`"message"` key). -/
def offline_hint (message : String) : String :=
  let msg := pyToLower message
  if strContains msg "line too long" then
    "Keep lines ≤ 100 chars. Break long expressions or strings."
  else if strContains msg "missing module docstring" then
    "Add a top-level docstring describing purpose & usage."
  else if strContains msg "missing class docstring" then
    "Add a short docstring summarizing the class."
  else if strContains msg "wildcard import" then
    "Avoid \u0027from X import *\u0027; import only needed names."
  else if strContains msg "unable to import" then
    "Install or correctly reference the missing module."
  else
    "Review and refactor for clarity; follow PEP-8 and security best practices."

/-- Classification of a chat error (`llm_agent.py` lines 47-48): retry only
when the lowercased message contains `"rate"` or `"quota"`. -/
def errIsRate (msg : String) : Bool :=
  strContains (pyToLower msg) "rate" || strContains (pyToLower msg) "quota"

/-- The retry loop of `_chat` (`llm_agent.py` lines 32-53): up to `fuel`
attempts, backing off on rate errors with `delay = min(delay * 2, 16)`,
re-raising other errors, raising `LLM_RATE_LIMIT` on exhaustion. -/
def chatGo (o : Oracle) (prompt : String) : ℕ → ℕ → LLMSt → Except String String × LLMSt
  | 0, _, st => (.error "LLM_RATE_LIMIT", st)
  | fuel + 1, delay, st =>
    let st1 := { st with oidx := st.oidx + 1, attempts := st.attempts + 1,
                         prompts := st.prompts ++ [prompt] }
    match o st.oidx prompt with
    | .ok s => (.ok s, st1)
    | .err m =>
      if errIsRate m then
        chatGo o prompt fuel (min (delay * 2) 16) { st1 with sleeps := st1.sleeps ++ [delay] }
      else (.error m, st1)

/-- `_chat` (`llm_agent.py` lines 28-53) with the default `retries=3`:
raises `LLM_DISABLED` when no key is configured, otherwise runs the retry
loop starting at delay 2. -/
def pychat (env : LLMEnv) (prompt : String) (st : LLMSt) : Except String String × LLMSt :=
  let st0 := { st with calls := st.calls + 1 }
  if env.useLLM then chatGo env.oracle prompt 3 2 st0
  else (.error "LLM_DISABLED", st0)

/-- The shared per-finding block of `reason_over_findings` (`llm_agent.py`
lines 72-76, 83-87, 95-99):
`try: suggestion = _chat(prompt) if llm_budget > 0 else offline_hint(iss);
llm_budget -= 1 except: suggestion = offline_hint(iss)`.
Note the decrement is skipped when `_chat` raises, because it sits after
the call inside the `try` block. -/
def processOne (env : LLMEnv) (prompt hintMsg : String) (st : LLMSt) : String × LLMSt :=
  if st.budget > 0 then
    match (pychat env prompt st).1 with
    | .ok s =>
      (s, { (pychat env prompt st).2 with
            budget := (pychat env prompt st).2.budget - 1,
            succ := (pychat env prompt st).2.succ + 1 })
    | .error _ => (offline_hint hintMsg, (pychat env prompt st).2)
  else
    (offline_hint hintMsg, { st with budget := st.budget - 1 })

/-- A pylint issue dict as read by the reasoning pass (`.get` defaults
applied). -/
structure PylintIssue where
  message : String
  line : String
  symbol : String

/-- One entry of the pylint findings list: a file and its issues. -/
structure PylintEntry where
  file : String
  issues : List PylintIssue

/-- A bandit result dict as read by the reasoning pass. -/
structure BanditIssue where
  filename : String
  line_number : String
  issue_text : String

/-- A radon complexity item as read by the reasoning pass. -/
structure RadonItem where
  name : String
  rank : String
  lineno : String

/-- The analysis dict consumed by `reason_over_findings`, with the
`.get(..., default)` accesses already resolved. -/
structure AnalysisIn where
  pylint : List PylintEntry
  bandit_results : List BanditIssue
  radon : List (String × List RadonItem)

/-- A suggestion dict produced by the reasoning pass. -/
structure Suggestion where
  type : String
  file : String
  line : String
  message : String
  suggestion : String

/-- `build_prompt` (`llm_agent.py` lines 55-59). -/
def build_prompt (file_path msg line symbol : String) : String :=
  "File: " ++ file_path ++ "\nLine: " ++ line ++ "\nIssue: " ++ msg ++
    "\nSymbol: " ++ symbol ++
    "\n\nExplain briefly why it’s a problem and give a minimal safe fix."

/-- The inner pylint loop: one `processOne` per issue of a file. -/
def processIssues (env : LLMEnv) (f : String) :
    List PylintIssue → LLMSt → List Suggestion × LLMSt
  | [], st => ([], st)
  | iss :: rest, st =>
    let r1 := processOne env (build_prompt f iss.message iss.line iss.symbol) iss.message st
    let r2 := processIssues env f rest r1.2
    (⟨"pylint", f, iss.line, iss.message, r1.1⟩ :: r2.1, r2.2)

/-- The pylint phase: per file entry, its issues truncated to
`max_llm_calls`. -/
def pylintPhase (env : LLMEnv) (maxCalls : ℕ) :
    List PylintEntry → LLMSt → List Suggestion × LLMSt
  | [], st => ([], st)
  | entry :: rest, st =>
    let r1 := processIssues env entry.file (entry.issues.take maxCalls) st
    let r2 := pylintPhase env maxCalls rest r1.2
    (r1.1 ++ r2.1, r2.2)

/-- The bandit phase body over the already-truncated list. -/
def banditPhase (env : LLMEnv) :
    List BanditIssue → LLMSt → List Suggestion × LLMSt
  | [], st => ([], st)
  | iss :: rest, st =>
    let r1 := processOne env
      ("Security issue in " ++ iss.filename ++ ":" ++ iss.line_number ++
        "\n" ++ iss.issue_text ++ "\nExplain risk + safe fix.") "" st
    let r2 := banditPhase env rest r1.2
    (⟨"bandit", iss.filename, iss.line_number, iss.issue_text, r1.1⟩ :: r2.1, r2.2)

/-- The inner radon loop over the already-truncated items of one file. -/
def radonItems (env : LLMEnv) (f : String) :
    List RadonItem → LLMSt → List Suggestion × LLMSt
  | [], st => ([], st)
  | it :: rest, st =>
    let r1 := processOne env
      (f ++ ":" ++ it.lineno ++ " has complexity rank " ++ it.rank ++
        ". Suggest a refactor outline.") "" st
    let r2 := radonItems env f rest r1.2
    (⟨"radon", f, it.lineno, "Complexity " ++ it.rank, r1.1⟩ :: r2.1, r2.2)

/-- The radon phase over the already-truncated file list, the items of each file
truncated to 2. -/
def radonPhase (env : LLMEnv) :
    List (String × List RadonItem) → LLMSt → List Suggestion × LLMSt
  | [], st => ([], st)
  | (f, items) :: rest, st =>
    let r1 := radonItems env f (items.take 2) st
    let r2 := radonPhase env rest r1.2
    (r1.1 ++ r2.1, r2.2)

/-- `reason_over_findings` (`llm_agent.py` lines 62-102): initialize
`llm_budget = max_llm_calls`, then the pylint phase (issues per file
truncated to `max_llm_calls`), the bandit phase (first 3 results), and the
radon phase (first 3 files, 2 items each). -/
def reason_over_findings (env : LLMEnv) (analysis : AnalysisIn) (maxCalls : ℕ)
    (st0 : LLMSt) : List Suggestion × LLMSt :=
  let st := { st0 with budget := (maxCalls : ℤ) }
  let r1 := pylintPhase env maxCalls analysis.pylint st
  let r2 := banditPhase env (analysis.bandit_results.take 3) r1.2
  let r3 := radonPhase env (analysis.radon.take 3) r2.2
  (r1.1 ++ r2.1 ++ r3.1, r3.2)

/-! ### `analyzer.py`: the static tool runner -/

/-- A parsed JSON value as returned by `json.loads`. -/
inductive PyJson where
  | arr (xs : List PyJson)
  | obj (kvs : List (String × PyJson))
  | str (s : String)
  | num (n : ℤ)
  | bool (b : Bool)
  | null

/-- Model of Python `out or dflt` on strings (empty string is falsy). -/
def orElseStr (out dflt : String) : String :=
  if out = "" then dflt else out

/-- The per-file `try: issues = json.loads(out or "[]") except: issues = []`
block of `run_pylint` (`analyzer.py` lines 23-27). `parse` models
`json.loads`, with `none` for a raised exception. -/
def pylintIssuesOf (parse : String → Option PyJson) (out : String) : PyJson :=
  match parse (orElseStr out "[]") with
  | some j => j
  | none => .arr []

/-- `run_pylint` (`analyzer.py` lines 15-29): one `{"file": f, "issues": ...}`
record per source file, in file order; `outputs` pairs each file with the
standard output of its pylint subprocess. -/
def run_pylint (parse : String → Option PyJson) (outputs : List (String × String)) :
    List (String × PyJson) :=
  outputs.map fun fo => (fo.1, pylintIssuesOf parse fo.2)

/-- `run_bandit` (`analyzer.py` lines 31-38): parse `out or "{}"`, falling
back to `{"results": []}` on a parse exception. -/
def run_bandit (parse : String → Option PyJson) (out : String) : PyJson :=
  match parse (orElseStr out "\x7b\x7d") with
  | some j => j
  | none => .obj [("results", .arr [])]

/-- `run_radon_complexity` (`analyzer.py` lines 40-47): parse `out or "{}"`,
falling back to `{}` on a parse exception. -/
def run_radon_complexity (parse : String → Option PyJson) (out : String) : PyJson :=
  match parse (orElseStr out "\x7b\x7d") with
  | some j => j
  | none => .obj []

/-! ### `reporter.py`: sanitization and the two-tier PDF generation -/

/-- The normalization prologue of `sanitize` (`reporter.py` lines 23-28):
lists are newline-joined `str()`s, dicts are newline-joined `"k: v"` lines,
anything else is `str()`-ed. Always total: no branch can raise. -/
def sanitizeText : PyVal → String
  | .list xs => String.intercalate "\n" (xs.map pyStr)
  | .dict kvs => String.intercalate "\n" (kvs.map fun kv => kv.1 ++ ": " ++ pyStr kv.2)
  | .str s => s
  | v => pyStr v

/-- `sanitize` (`reporter.py` lines 21-30): normalize, then
`re.sub(r"[^\x00-\xFF]", "", text)` — strip every character above U+00FF,
in every rendering mode. -/
def sanitize (v : PyVal) : String :=
  String.mk ((sanitizeText v).toList.filter fun c => c.toNat ≤ 0xFF)

/-- The header part of `_render_pdf` (`reporter.py` lines 57-69): the texts
handed to the PDF object for the title cell and the meta block. The mode
flag only selects the font name (`"Auto"` vs `"Helvetica"`); both texts go
through `sanitize` in both modes. -/
def renderHeaderTexts (unicodeMode : Bool) (repoUrl timeStr : String) :
    List (String × String) :=
  let font := if unicodeMode then "Auto" else "Helvetica"
  [(font, sanitize (.str "DevMate – AI Multi-Agent Code Review Report")),
   (font, sanitize (.str ("Repository: " ++ repoUrl ++ "\nGenerated on: " ++ timeStr)))]

/-- The font name selected for ordinary text by the rendering mode
(`"Auto" if unicode_mode else "Helvetica"` throughout `_render_pdf`). -/
def fontOf (unicodeMode : Bool) : String :=
  if unicodeMode then "Auto" else "Helvetica"

/-- Title-casing walker: uppercase a letter that follows a non-letter,
lowercase the rest. -/
def titleAux : Bool → List Char → List Char
  | _, [] => []
  | prevAlpha, c :: cs =>
    if c.isAlpha then
      (if prevAlpha then c.toLower else c.toUpper) :: titleAux true cs
    else c :: titleAux false cs

/-- Model of Python `str.title()` (ASCII letters, which is all the
suggestion `type` strings of this pipeline contain). -/
def pyTitle (s : String) : String :=
  String.mk (titleAux false s.toList)

/-- The section heading of `_render_pdf` (`reporter.py` lines 72-80): the
fixed emoji table keyed by the lowercased `type`, falling back to the
title-cased type string (or `"Section"` when it is falsy). -/
def sectionHeader (stypeRaw : String) : String :=
  let stype := pyToLower stypeRaw
  if stype = "static" then "🔍 Static Analysis Findings"
  else if stype = "review" then "🧠 AI Code Review & Recommendations"
  else if stype = "summary" then "📊 Final Summary & Health Score"
  else pyTitle (if stypeRaw = "" then "Section" else stypeRaw)

/-- The code-block loop of `_render_pdf` (`reporter.py` lines 112-119):
for each extracted block, a `"💡 Code Suggestion {idx}:"` label cell —
passed to the document WITHOUT `sanitize` — followed by the sanitized
block in Courier. -/
def codeTexts (mode : Bool) : ℕ → List String → List (String × String)
  | _, [] => []
  | i, c :: cs =>
    (fontOf mode, "💡 Code Suggestion " ++ Nat.repr i ++ ":")
    :: ("Courier", sanitize (.str c))
    :: codeTexts mode (i + 1) cs

/-- The per-suggestion section body of `_render_pdf` (`reporter.py` lines
78-128): every `(font, text)` pair handed to `pdf.cell`/`pdf.multi_cell`,
in emission order. The results of the fenced-code extraction of lines
100-102 (`clean_body` and `codes`) are passed in as parameters; the claim
under study concerns which of these texts go through `sanitize`, not the
regex that splits them. -/
def renderSectionTexts (mode : Bool) (stype file line msg cleanBody : String)
    (codes : List String) : List (String × String) :=
  (fontOf mode, sanitize (.str (sectionHeader stype)))
  :: (fontOf mode, sanitize (.str ("File: " ++ file ++ "  |  Line: " ++ line)))
  :: (fontOf mode, sanitize (.str ("Issue: " ++ msg)))
  :: ((if cleanBody = "" then [] else [(fontOf mode, sanitize (.str cleanBody))])
    ++ (if codes.isEmpty then
          [(fontOf mode, sanitize (.str "No code suggestions available."))]
        else codeTexts mode 1 codes))

/-- The full-log page of `_render_pdf` (`reporter.py` lines 131-144): the
red log title and the clamped, ANSI-stripped log body, both sanitized;
`cleanedLog` stands for the result of the clamp/ANSI post-processing of
lines 141-143. -/
def renderLogTexts (mode : Bool) (cleanedLog : String) : List (String × String) :=
  [(fontOf mode, sanitize (.str "🖥️ Full CrewAI Execution Log")),
   (fontOf mode, sanitize (.str cleanedLog))]

/-- The per-section texts with the fonts projected away (used to state
that the emitted texts do not depend on the rendering mode). -/
def codeSndTexts : ℕ → List String → List String
  | _, [] => []
  | i, c :: cs =>
    ("💡 Code Suggestion " ++ Nat.repr i ++ ":")
    :: sanitize (.str c) :: codeSndTexts (i + 1) cs

/-- The mode-free list of texts a section emits. -/
def sectionSndTexts (stype file line msg cleanBody : String)
    (codes : List String) : List String :=
  sanitize (.str (sectionHeader stype))
  :: sanitize (.str ("File: " ++ file ++ "  |  Line: " ++ line))
  :: sanitize (.str ("Issue: " ++ msg))
  :: ((if cleanBody = "" then [] else [sanitize (.str cleanBody)])
    ++ (if codes.isEmpty then [sanitize (.str "No code suggestions available.")]
        else codeSndTexts 1 codes))

/-- Environment of `generate_pdf_report`: the font search result and the
outcomes of the two rendering tiers (each covering font registration,
`_render_pdf`, and `pdf.output`), with `Except.error` modelling a raised
exception. -/
structure RenderEnv where
  fontPath : Option String
  uniOutcome : Except String Unit
  fbOutcome : Except String Unit

/-- The output path built at `reporter.py` line 151 and returned in
relative form at lines 179/193. -/
def reportPath (t : ℕ) : String :=
  "reports/devmate_report_" ++ Nat.repr t ++ ".pdf"

/-- `generate_pdf_report` (`reporter.py` lines 147-193): try the Unicode
tier (raising immediately when no font is found); on any exception retry
once on a fresh `FPDF` object in fallback mode; a fallback exception is
re-raised. -/
def generate_pdf_report (env : RenderEnv) (t : ℕ) : Except String String :=
  let uniTry : Except String Unit :=
    match env.fontPath with
    | some _ => env.uniOutcome
    | none => .error "No Unicode font found; forcing fallback."
  match uniTry with
  | .ok _ => .ok (reportPath t)
  | .error _ =>
    match env.fbOutcome with
    | .ok _ => .ok (reportPath t)
    | .error e => .error e

/-! ### `app.py`: the two-phase record write of the index route -/

/-- A persisted `Analysis` row (id and timestamp omitted). -/
structure AnalysisRecord where
  repo_name : String
  score : ℚ
  pdf_path : String

/-- Environment of one POST to `/`: the outcome of
`analyze_repo_with_agents` and of `generate_pdf_report`. -/
structure AppEnv where
  analysisResult : Except String PyVal
  pdfResult : Except String String

/-- The dashboard-link normalization of `app.py` lines 80-81:
`pdf_path.replace("static/", "")` when it starts with `"static/"`. -/
def stripStatic (p : String) : String :=
  if pyStartsWith p "static/" then pyReplace p "static/" "" else p

/-- The POST branch of `index` (`app.py` lines 43-98). Returns the final
database plus the list of database states at each committed write (the
two-phase record write); an empty commit list means the run failed before
the placeholder record was created (empty URL, analysis failure, or a
score-extraction exception caught by the outer handler). -/
def index_post (env : AppEnv) (repoUrl : String) (db : List AnalysisRecord) :
    List AnalysisRecord × List (List AnalysisRecord) :=
  if pyStripWs repoUrl = "" then (db, [])
  else
    match env.analysisResult with
    | .error _ => (db, [])
    | .ok result_val =>
      match extract_score result_val with
      | none => (db, [])
      | some score =>
        match env.pdfResult with
        | .ok p =>
          (db ++ [⟨pyStripWs repoUrl, score, stripStatic p⟩],
           [db ++ [⟨pyStripWs repoUrl, score, "Generating..."⟩],
            db ++ [⟨pyStripWs repoUrl, score, stripStatic p⟩]])
        | .error _ =>
          (db ++ [⟨pyStripWs repoUrl, score, "Error generating PDF"⟩],
           [db ++ [⟨pyStripWs repoUrl, score, "Generating..."⟩],
            db ++ [⟨pyStripWs repoUrl, score, "Error generating PDF"⟩]])

/-! ### Concrete fixtures used to instantiate the theorems -/

/-- An endpoint that always fails with a non-rate error. -/
def oracleBoom : Oracle := fun _ _ => .err "boom"

/-- Environment with a configured key and an always-failing endpoint. -/
def envBoom : LLMEnv := ⟨true, oracleBoom⟩

/-- An endpoint that rate-limits the first two attempts, then succeeds. -/
def oracleRate : Oracle := fun i _ =>
  if i = 0 then .err "Rate limit reached"
  else if i = 1 then .err "quota exceeded for today"
  else .ok "Why: shadowing. Fix: rename the variable."

/-- Environment with a configured key and the rate-limiting endpoint. -/
def envRate : LLMEnv := ⟨true, oracleRate⟩

/-- An endpoint that always succeeds immediately. -/
def oracleOk : Oracle := fun _ _ => .ok "Why: too long. Fix: split it."

/-- Environment with a configured key and the always-succeeding endpoint. -/
def envOk : LLMEnv := ⟨true, oracleOk⟩

/-- The all-zero initial reasoning state. -/
def stInit : LLMSt := ⟨0, 0, 0, 0, 0, [], []⟩

/-- The initial reasoning state with one unit of budget. -/
def stB1 : LLMSt := ⟨1, 0, 0, 0, 0, [], []⟩

/-- A sample pylint issue. -/
def issA : PylintIssue := ⟨"unused variable x", "3", "unused-variable"⟩

/-- An analysis with two files carrying one pylint issue each. -/
def analysisTwo : AnalysisIn := ⟨[⟨"a.py", [issA]⟩, ⟨"b.py", [issA]⟩], [], []⟩

/-- A JSON stub that only accepts the two coercion defaults. -/
def parseStub : String → Option PyJson := fun s =>
  if s = "[]" then some (.arr [])
  else if s = "\x7b\x7d" then some (.obj [])
  else none

/-- Pylint subprocess outputs: one malformed, one empty. -/
def outputsBad : List (String × String) := [("a.py", "not json"), ("b.py", "")]

/-- Rendering environment whose Unicode tier raises and whose fallback
tier succeeds. -/
def envPdfFallback : RenderEnv := ⟨some "C:/Windows/Fonts/arial.ttf", .error "font blew up", .ok ()⟩

/-- Application environment for a run whose analysis succeeds and whose
PDF generation fails. -/
def appEnvPdfFail : AppEnv :=
  ⟨.ok (.str "Final score: 9/10"), .error "PDF failure"⟩

/-! ### Range of the score values -/

lemma pow_ten_pos (k : ℕ) : (0 : ℤ) < 10 ^ k :=
  pow_pos (by norm_num) k

lemma roundDivHE_nonneg (m D : ℤ) (hm : 0 ≤ m) (hD : 0 < D) :
    0 ≤ roundDivHE m D := by
  have hq : 0 ≤ m.fdiv D := Int.fdiv_nonneg hm hD.le
  unfold roundDivHE
  split
  · exact hq
  · split
    · omega
    · split <;> omega

lemma roundDivHE_le_1000 (m D : ℤ) (hD : 0 < D)
    (hbound : m ≤ D * 1000) : roundDivHE m D ≤ 1000 := by
  unfold roundDivHE
  rw [Int.fdiv_eq_ediv _ hD.le, Int.fmod_eq_emod _ hD.le]
  have hid : D * (m / D) + m % D = m := Int.ediv_add_emod m D
  have hrnn : 0 ≤ m % D := Int.emod_nonneg m (ne_of_gt hD)
  have hrlt : m % D < D := Int.emod_lt_of_pos m hD
  have hq1000 : m / D ≤ 1000 := by
    have h1 : m / D ≤ (1000 * D) / D := Int.ediv_le_ediv hD (by linarith)
    rwa [Int.mul_ediv_cancel 1000 (ne_of_gt hD)] at h1
  have hqlt : 0 < m % D → m / D < 1000 := by
    intro hrpos
    by_contra hcon
    have hq' : m / D = 1000 := by omega
    rw [hq'] at hid
    linarith
  split
  · exact hq1000
  · split
    · rename_i h2r h2r'
      have hr : 0 < m % D := by linarith
      have := hqlt hr
      omega
    · rename_i h2r h2r'
      have hr : 0 < m % D := by omega
      have := hqlt hr
      split <;> omega

lemma Dec.round2h_nonneg (d : Dec) (hm : 0 < d.m) : 0 ≤ d.round2h := by
  unfold Dec.round2h
  split
  · exact mul_nonneg hm.le (pow_ten_pos _).le
  · exact roundDivHE_nonneg _ _ hm.le (pow_ten_pos _)

lemma Dec.round2h_le_1000 (d : Dec) (hm : 0 < d.m) (hle : d.le10 = true) :
    d.round2h ≤ 1000 := by
  unfold Dec.le10 at hle
  unfold Dec.round2h
  split
  · rename_i he2
    by_cases he : 0 ≤ d.e
    · rw [if_pos he] at hle
      have h10 : d.m * 10 ^ d.e.toNat ≤ 10 := of_decide_eq_true hle
      have htn : (d.e + 2).toNat = d.e.toNat + 2 := by omega
      calc d.m * 10 ^ (d.e + 2).toNat
          = d.m * 10 ^ d.e.toNat * 10 ^ 2 := by rw [htn, pow_add, mul_assoc]
        _ ≤ 10 * 10 ^ 2 := mul_le_mul_of_nonneg_right h10 (by norm_num)
        _ ≤ 1000 := by norm_num
    · rw [if_neg he] at hle
      have h10 : d.m ≤ 10 ^ ((-d.e).toNat + 1) := of_decide_eq_true hle
      have hcase : d.e = -1 ∨ d.e = -2 := by omega
      rcases hcase with h | h
      · rw [h] at h10 ⊢
        have e1 : ((-1 : ℤ) + 2).toNat = 1 := by decide
        have e2 : ((-(-1 : ℤ)).toNat + 1) = 2 := by decide
        rw [e1]
        rw [e2] at h10
        norm_num at h10 ⊢
        omega
      · rw [h] at h10 ⊢
        have e1 : ((-2 : ℤ) + 2).toNat = 0 := by decide
        have e2 : ((-(-2 : ℤ)).toNat + 1) = 3 := by decide
        rw [e1]
        rw [e2] at h10
        norm_num at h10 ⊢
        omega
  · rename_i he2
    have he : ¬ 0 ≤ d.e := by omega
    rw [if_neg he] at hle
    have h10 : d.m ≤ 10 ^ ((-d.e).toNat + 1) := of_decide_eq_true hle
    have hkk : (-d.e).toNat + 1 = (-(d.e + 2)).toNat + 3 := by omega
    refine roundDivHE_le_1000 _ _ (pow_ten_pos _) ?_
    rw [hkk, pow_add] at h10
    calc d.m ≤ 10 ^ (-(d.e + 2)).toNat * 10 ^ 3 := h10
      _ = 10 ^ (-(d.e + 2)).toNat * 1000 := by norm_num

lemma scoreOfToken_range (t : String) (h : ℤ) (hh : scoreOfToken t = some h) :
    0 ≤ h ∧ h ≤ 1000 := by
  unfold scoreOfToken at hh
  split at hh
  · split at hh
    · rename_i v hv
      split at hh
      · rename_i hrange
        have hrange' : v.isPos = true ∧ v.le10 = true := by simpa using hrange
        have hm : 0 < v.m := of_decide_eq_true hrange'.1
        have heq : h = v.round2h := by
          injection hh with h'
          omega
        rw [heq]
        exact ⟨v.round2h_nonneg hm, v.round2h_le_1000 hm hrange'.2⟩
      · exact absurd hh (by simp)
    · exact absurd hh (by simp)
  · exact absurd hh (by simp)

lemma scanTokens_range (l : List String) :
    0 ≤ scanTokens l ∧ scanTokens l ≤ 1000 := by
  induction l with
  | nil => simp [scanTokens]
  | cons t ts ih =>
    unfold scanTokens
    split
    · rename_i v hv
      exact scoreOfToken_range t v hv
    · exact ih

lemma extract_score_h_range (s : String) :
    0 ≤ extract_score_h s ∧ extract_score_h s ≤ 1000 :=
  scanTokens_range (pySplit s)

/-- The scan is the first-qualifying-token scan. -/
lemma scanTokens_eq_findSome? (l : List String) :
    scanTokens l = (l.findSome? scoreOfToken).getD 750 := by
  induction l with
  | nil => simp [scanTokens]
  | cons t ts ih =>
    unfold scanTokens
    rw [List.findSome?_cons]
    split
    · rename_i v hv
      rw [hv]
      rfl
    · rename_i hv
      rw [hv]
      exact ih

/-! ### Claim C1: score extraction -/

/-- C1 (amended). Score extraction scans whitespace tokens in order,
accepts a token when it contains `"/10"` or is a bare numeral, strips any
leading and trailing characters of the set `/`, `1`, `0` (Python
`str.strip` character-set semantics, not suffix removal), parses the
remainder as a float, and returns the first value in `(0, 10]` rounded to
2 decimals, defaulting to `7.5`. Hence `"Overall score: 8.5/10 done"`
gives `8.5`, but `"rating 12/10 but also 6.0"` gives `2.0` — the token
`"12/10"` is stripped to `"2"`, accepted, and `6.0` is never reached. -/
theorem score_extraction_examples :
    extract_score_str "Overall score: 8.5/10 done" = 85/10
    ∧ extract_score_str "rating 12/10 but also 6.0" = 2
    ∧ (∀ s : String, (∀ t ∈ pySplit s, scoreOfToken t = none) →
        extract_score_str s = 75/10)
    ∧ (∀ s : String, extract_score_str s = extract_score_spec s) := by
  refine ⟨?_, ?_, ?_, ?_⟩
  · have h : extract_score_h "Overall score: 8.5/10 done" = 850 := by decide
    unfold extract_score_str
    rw [h]
    norm_num
  · have h : extract_score_h "rating 12/10 but also 6.0" = 200 := by decide
    unfold extract_score_str
    rw [h]
    norm_num
  · intro s hs
    have h : (pySplit s).findSome? scoreOfToken = none :=
      List.findSome?_eq_none_iff.mpr hs
    unfold extract_score_str extract_score_h
    rw [scanTokens_eq_findSome?, h]
    norm_num
  · intro s
    unfold extract_score_str extract_score_h extract_score_spec
    rw [scanTokens_eq_findSome?]

/-- C1 witness: a string with no qualifying token gives the default 7.5. -/
theorem score_extraction_examples_witness :
    extract_score_str "just words here" = 75/10 :=
  score_extraction_examples.2.2.1 "just words here" (by decide)

/-- C1 counterexample: on `"rating 12/10 but also 6.0"` the code returns
`2.0`, not the `6.0` the claim asserts (`"12/10".strip("/10")` is `"2"`). -/
theorem score_extraction_claim_cex :
    extract_score_str "rating 12/10 but also 6.0" = 2
    ∧ extract_score_str "rating 12/10 but also 6.0" ≠ 6 := by
  have h : extract_score_h "rating 12/10 but also 6.0" = 200 := by decide
  unfold extract_score_str
  rw [h]
  norm_num

/-! ### Claim C10: totality and range of extract_score -/

/-- C10 (amended). Whenever `extract_score` returns (in particular for
every plain string input, which never raises), the result lies in
`[0, 10]`; the claimed interval `(0, 10]` is not preserved by rounding
(`"0.004"` returns `0.0`), and inputs whose normalization hits a truthy
non-string `"suggestion"` value raise instead of returning. -/
theorem extract_score_total_range :
    (∀ (v : PyVal) (q : ℚ), extract_score v = some q → 0 ≤ q ∧ q ≤ 10)
    ∧ (∀ s : String, extract_score (PyVal.str s) = some (extract_score_str s)) := by
  constructor
  · intro v q h
    unfold extract_score at h
    cases htt : toText v with
    | none => rw [htt] at h; simp at h
    | some s =>
      rw [htt] at h
      simp only [Option.map_some'] at h
      obtain ⟨h0, h1⟩ := extract_score_h_range s
      have hq : q = (extract_score_h s : ℚ) / 100 := by
        have := Option.some.inj h
        rw [← this]; rfl
      constructor
      · rw [hq]
        apply div_nonneg _ (by norm_num)
        exact_mod_cast h0
      · rw [hq, div_le_iff₀ (by norm_num : (0:ℚ) < 100)]
        have : (extract_score_h s : ℚ) ≤ 1000 := by exact_mod_cast h1
        linarith
  · intro s
    rfl

/-- C10 witness: the theorem applied to the concrete string `"hi"`,
whose extraction returns the default 7.5. -/
theorem extract_score_total_range_witness :
    0 ≤ (15/2 : ℚ) ∧ (15/2 : ℚ) ≤ 10 :=
  extract_score_total_range.1 (PyVal.str "hi") (15/2) (by
    have h : extract_score_h "hi" = 750 := by decide
    show Option.map extract_score_str (toText (PyVal.str "hi")) = some (15/2)
    show some (extract_score_str "hi") = some (15/2)
    unfold extract_score_str
    rw [h]
    norm_num)

/-- C10 counterexample: a dict whose `"suggestion"` value is the integer
`123` raises (`123` has no `.split`), and the string `"0.004"` returns
`0.0`, which is outside `(0, 10]`. -/
theorem extract_score_exception_cex :
    extract_score (PyVal.dict [("suggestion", PyVal.int 123)]) = none
    ∧ extract_score (PyVal.str "0.004") = some 0 := by
  constructor
  · rfl
  · have h : extract_score_h "0.004" = 0 := by decide
    show some (extract_score_str "0.004") = some 0
    unfold extract_score_str
    rw [h]
    norm_num

/-! ### Substring lemmas -/

lemma containsAux_self (n r : List Char) : containsAux n (n ++ r) = true := by
  cases n with
  | nil =>
    cases r with
    | nil => rfl
    | cons c cs => simp [containsAux, List.isPrefixOf]
  | cons a as =>
    have hpre : (a :: as).isPrefixOf ((a :: as) ++ r) = true := by
      rw [List.isPrefixOf_iff_prefix]
      exact List.prefix_append _ _
    simp only [List.cons_append] at hpre ⊢
    simp [containsAux, hpre]

lemma containsAux_cons (n : List Char) (c : Char) (cs : List Char)
    (hc : containsAux n cs = true) : containsAux n (c :: cs) = true := by
  simp [containsAux, hc]

lemma containsAux_append (n l r : List Char) :
    containsAux n (l ++ (n ++ r)) = true := by
  induction l with
  | nil => simpa using containsAux_self n r
  | cons c cs ih => simpa using containsAux_cons n c _ ih

lemma strContains_append (l m r : String) :
    strContains (l ++ (m ++ r)) m = true := by
  show containsAux m.data (l ++ (m ++ r)).data = true
  rw [String.data_append, String.data_append]
  exact containsAux_append m.data l.data r.data

/-! ### State lemmas for the chat helper -/

lemma chatGo_budget (o : Oracle) (p : String) :
    ∀ (fuel delay : ℕ) (st : LLMSt),
      (chatGo o p fuel delay st).2.budget = st.budget
      ∧ (chatGo o p fuel delay st).2.succ = st.succ := by
  intro fuel
  induction fuel with
  | zero => intro delay st; simp [chatGo]
  | succ k ih =>
    intro delay st
    unfold chatGo
    cases ho : o st.oidx p with
    | ok s => simp
    | err m =>
      by_cases hr : errIsRate m = true
      · simp only [hr, if_true]
        simpa using ih (min (delay * 2) 16) _
      · simp [hr]

lemma pychat_budget (env : LLMEnv) (p : String) (st : LLMSt) :
    (pychat env p st).2.budget = st.budget
    ∧ (pychat env p st).2.succ = st.succ := by
  unfold pychat
  by_cases hU : env.useLLM
  · simp only [hU, if_true]
    simpa using chatGo_budget env.oracle p 3 2 _
  · simp [hU]

lemma chatGo_prompts_ext (o : Oracle) (p : String) :
    ∀ (fuel delay : ℕ) (st : LLMSt), 0 < fuel →
      ∃ ext, (chatGo o p fuel delay st).2.prompts = st.prompts ++ p :: ext := by
  intro fuel
  induction fuel with
  | zero => intro delay st h; exact absurd h (lt_irrefl 0)
  | succ k ih =>
    intro delay st _
    unfold chatGo
    cases ho : o st.oidx p with
    | ok s => exact ⟨[], by simp⟩
    | err m =>
      by_cases hr : errIsRate m = true
      · simp only [hr, if_true]
        cases k with
        | zero => exact ⟨[], by simp [chatGo]⟩
        | succ k' =>
          obtain ⟨ext, hext⟩ := ih (min (delay * 2) 16)
            { st with oidx := st.oidx + 1, attempts := st.attempts + 1,
                      prompts := st.prompts ++ [p],
                      sleeps := st.sleeps ++ [delay] } (Nat.succ_pos k')
          refine ⟨p :: ext, ?_⟩
          simpa [List.append_assoc] using hext
      · simp only [Bool.not_eq_true] at hr
        simp [hr]

lemma pychat_prompts (env : LLMEnv) (p : String) (st : LLMSt)
    (hU : env.useLLM = true) :
    ∃ ext, (pychat env p st).2.prompts = st.prompts ++ p :: ext := by
  unfold pychat
  simp only [hU, if_true]
  simpa using chatGo_prompts_ext env.oracle p 3 2 _ (by norm_num)

lemma prompt_log_lookup (a b : List String) (p : String) :
    (a ++ p :: b)[a.length]? = some p := by
  rw [List.getElem?_append_right (le_refl a.length)]
  simp

/-! ### Measure lemmas: successful calls spend budget -/

lemma processOne_measure (env : LLMEnv) (p h : String) (st : LLMSt) :
    ((processOne env p h st).2.succ : ℤ) + max (processOne env p h st).2.budget 0
      = (st.succ : ℤ) + max st.budget 0 := by
  unfold processOne
  by_cases hb : st.budget > 0
  · simp only [hb, if_true]
    obtain ⟨hbud, hsucc⟩ := pychat_budget env p st
    cases hc : (pychat env p st).1 with
    | ok s =>
      dsimp
      rw [hbud, hsucc]
      push_cast
      omega
    | error e =>
      rw [hbud, hsucc]
  · simp only [hb, if_false]
    omega

lemma processIssues_measure (env : LLMEnv) (f : String) :
    ∀ (l : List PylintIssue) (st : LLMSt),
      ((processIssues env f l st).2.succ : ℤ)
          + max (processIssues env f l st).2.budget 0
        = (st.succ : ℤ) + max st.budget 0 := by
  intro l
  induction l with
  | nil => intro st; simp [processIssues]
  | cons i rest ih =>
    intro st
    unfold processIssues
    dsimp
    rw [ih]
    exact processOne_measure env _ i.message st

lemma pylintPhase_measure (env : LLMEnv) (N : ℕ) :
    ∀ (l : List PylintEntry) (st : LLMSt),
      ((pylintPhase env N l st).2.succ : ℤ)
          + max (pylintPhase env N l st).2.budget 0
        = (st.succ : ℤ) + max st.budget 0 := by
  intro l
  induction l with
  | nil => intro st; simp [pylintPhase]
  | cons e rest ih =>
    intro st
    unfold pylintPhase
    dsimp
    rw [ih]
    exact processIssues_measure env e.file _ st

lemma banditPhase_measure (env : LLMEnv) :
    ∀ (l : List BanditIssue) (st : LLMSt),
      ((banditPhase env l st).2.succ : ℤ)
          + max (banditPhase env l st).2.budget 0
        = (st.succ : ℤ) + max st.budget 0 := by
  intro l
  induction l with
  | nil => intro st; simp [banditPhase]
  | cons i rest ih =>
    intro st
    unfold banditPhase
    dsimp
    rw [ih]
    exact processOne_measure env _ "" st

lemma radonItems_measure (env : LLMEnv) (f : String) :
    ∀ (l : List RadonItem) (st : LLMSt),
      ((radonItems env f l st).2.succ : ℤ)
          + max (radonItems env f l st).2.budget 0
        = (st.succ : ℤ) + max st.budget 0 := by
  intro l
  induction l with
  | nil => intro st; simp [radonItems]
  | cons i rest ih =>
    intro st
    unfold radonItems
    dsimp
    rw [ih]
    exact processOne_measure env _ "" st

lemma radonPhase_measure (env : LLMEnv) :
    ∀ (l : List (String × List RadonItem)) (st : LLMSt),
      ((radonPhase env l st).2.succ : ℤ)
          + max (radonPhase env l st).2.budget 0
        = (st.succ : ℤ) + max st.budget 0 := by
  intro l
  induction l with
  | nil => intro st; simp [radonPhase]
  | cons e rest ih =>
    intro st
    obtain ⟨f, items⟩ := e
    unfold radonPhase
    dsimp
    rw [ih]
    exact radonItems_measure env f _ st

/-! ### Claim C2: the reasoning budget -/

/-- C2 (amended). The budget bounds the number of *successful* model
calls: across the combined pylint+bandit+radon pass at most `N` calls can
succeed, and a finding reached with `budget <= 0` gets the rule-based
offline hint with no new call. Failed call attempts, however, do not
decrement the budget (the decrement sits after the call in the `try`
block), so the number of *attempted* calls is not bounded by `N`. -/
theorem budget_bounds_successful_calls :
    (∀ (env : LLMEnv) (analysis : AnalysisIn) (N : ℕ) (st0 : LLMSt),
      ((reason_over_findings env analysis N st0).2.succ : ℤ) ≤ (st0.succ : ℤ) + N)
    ∧ (∀ (env : LLMEnv) (p h : String) (st : LLMSt), st.budget ≤ 0 →
      processOne env p h st = (offline_hint h, { st with budget := st.budget - 1 })) := by
  constructor
  · intro env analysis N st0
    unfold reason_over_findings
    dsimp
    have h1 := pylintPhase_measure env N analysis.pylint
      { st0 with budget := (N : ℤ) }
    have h2 := banditPhase_measure env (analysis.bandit_results.take 3)
      (pylintPhase env N analysis.pylint { st0 with budget := (N : ℤ) }).2
    have h3 := radonPhase_measure env (analysis.radon.take 3)
      (banditPhase env (analysis.bandit_results.take 3)
        (pylintPhase env N analysis.pylint { st0 with budget := (N : ℤ) }).2).2
    dsimp at h1
    rw [h1] at h2
    rw [h2] at h3
    have hmax := le_max_right
      ((radonPhase env (analysis.radon.take 3)
        (banditPhase env (analysis.bandit_results.take 3)
          (pylintPhase env N analysis.pylint { st0 with budget := (N : ℤ) }).2).2).2.budget) (0 : ℤ)
    omega
  · intro env p h st hb
    unfold processOne
    rw [if_neg (by omega)]

/-- C2 witness: with the budget already at zero, a finding is answered by
the offline rule-based hint and the budget field is still decremented. -/
theorem budget_bounds_successful_calls_witness :
    processOne envOk "prompt" "line too long (120/100)" stInit
      = (offline_hint "line too long (120/100)", { stInit with budget := -1 }) :=
  budget_bounds_successful_calls.2 envOk "prompt" "line too long (120/100)" stInit
    (by decide)

/-- C2 counterexample: with budget `N = 1` and two findings, an endpoint
that raises a non-rate error on every attempt is invoked twice — the
failed first call does not consume budget, so attempts exceed `N`. -/
theorem budget_attempts_exceed_cex :
    (reason_over_findings envBoom analysisTwo 1 stInit).2.calls = 2
    ∧ ¬((reason_over_findings envBoom analysisTwo 1 stInit).2.calls ≤ 1) := by
  constructor <;> decide

/-! ### Claim C3: per-finding call and decrement semantics -/

/-- C3 (amended). For a finding processed with remaining budget > 0 a
model call is issued (the templated prompt — containing the file, line,
message and symbol — is sent to the endpoint), and the budget is
decremented by exactly one when the call *succeeds*; when the call raises,
the decrement statement after it in the `try` block is skipped and the
budget is unchanged; when the budget is already exhausted no call is made
and the decrement still runs (driving the budget negative). -/
theorem budget_decrement_on_success_only :
    (∀ (env : LLMEnv) (p h : String) (st : LLMSt) (s : String),
      st.budget > 0 → (pychat env p st).1 = .ok s →
      processOne env p h st
        = (s, { (pychat env p st).2 with
                budget := (pychat env p st).2.budget - 1,
                succ := (pychat env p st).2.succ + 1 })
      ∧ (processOne env p h st).2.budget = st.budget - 1)
    ∧ (∀ (env : LLMEnv) (p h : String) (st : LLMSt) (e : String),
      st.budget > 0 → (pychat env p st).1 = .error e →
      processOne env p h st = (offline_hint h, (pychat env p st).2)
      ∧ (processOne env p h st).2.budget = st.budget)
    ∧ (∀ (env : LLMEnv) (p h : String) (st : LLMSt), st.budget ≤ 0 →
      processOne env p h st = (offline_hint h, { st with budget := st.budget - 1 })
      ∧ (processOne env p h st).2.oidx = st.oidx)
    ∧ (∀ (env : LLMEnv) (p h : String) (st : LLMSt),
      st.budget > 0 → env.useLLM = true →
      ((processOne env p h st).2.prompts)[st.prompts.length]? = some p)
    ∧ (∀ f m l s : String,
      strContains (build_prompt f m l s) f = true
      ∧ strContains (build_prompt f m l s) m = true
      ∧ strContains (build_prompt f m l s) l = true
      ∧ strContains (build_prompt f m l s) s = true) := by
  refine ⟨?_, ?_, ?_, ?_, ?_⟩
  · intro env p h st s hb hok
    obtain ⟨hbud, _⟩ := pychat_budget env p st
    unfold processOne
    rw [if_pos hb, hok]
    exact ⟨rfl, by dsimp; rw [hbud]⟩
  · intro env p h st e hb herr
    obtain ⟨hbud, _⟩ := pychat_budget env p st
    unfold processOne
    rw [if_pos hb, herr]
    exact ⟨rfl, hbud⟩
  · intro env p h st hb
    unfold processOne
    rw [if_neg (by omega)]
    exact ⟨rfl, rfl⟩
  · intro env p h st hb hU
    obtain ⟨ext, hext⟩ := pychat_prompts env p st hU
    unfold processOne
    rw [if_pos hb]
    cases hc : (pychat env p st).1 with
    | ok s =>
      dsimp
      rw [hext]
      exact prompt_log_lookup _ _ _
    | error e =>
      dsimp
      rw [hext]
      exact prompt_log_lookup _ _ _
  · intro f m l s
    refine ⟨?_, ?_, ?_, ?_⟩
    · have hd : build_prompt f m l s
          = "File: " ++ (f ++ ("\nLine: " ++ l ++ "\nIssue: " ++ m ++ "\nSymbol: " ++ s ++
            "\n\nExplain briefly why it’s a problem and give a minimal safe fix.")) := by
        simp [build_prompt, String.append_assoc]
      rw [hd]
      exact strContains_append _ _ _
    · have hd : build_prompt f m l s
          = ("File: " ++ f ++ "\nLine: " ++ l ++ "\nIssue: ")
            ++ (m ++ ("\nSymbol: " ++ s ++
              "\n\nExplain briefly why it’s a problem and give a minimal safe fix.")) := by
        simp [build_prompt, String.append_assoc]
      rw [hd]
      exact strContains_append _ _ _
    · have hd : build_prompt f m l s
          = ("File: " ++ f ++ "\nLine: ")
            ++ (l ++ ("\nIssue: " ++ m ++ "\nSymbol: " ++ s ++
              "\n\nExplain briefly why it’s a problem and give a minimal safe fix.")) := by
        simp [build_prompt, String.append_assoc]
      rw [hd]
      exact strContains_append _ _ _
    · have hd : build_prompt f m l s
          = ("File: " ++ f ++ "\nLine: " ++ l ++ "\nIssue: " ++ m ++ "\nSymbol: ")
            ++ (s ++
              "\n\nExplain briefly why it’s a problem and give a minimal safe fix.") := by
        simp [build_prompt, String.append_assoc]
      rw [hd]
      exact strContains_append _ _ _

/-- C3 witness: with one unit of budget and an endpoint that succeeds
immediately, the suggestion is the model reply and the budget drops to 0. -/
theorem budget_decrement_on_success_only_witness :
    processOne envOk "p" "m" stB1
      = ("Why: too long. Fix: split it.",
         { (pychat envOk "p" stB1).2 with
           budget := (pychat envOk "p" stB1).2.budget - 1,
           succ := (pychat envOk "p" stB1).2.succ + 1 })
    ∧ (processOne envOk "p" "m" stB1).2.budget = stB1.budget - 1 :=
  budget_decrement_on_success_only.1 envOk "p" "m" stB1
    "Why: too long. Fix: split it." (by decide) rfl

/-- C3 counterexample: with budget 1 and a non-rate-failing endpoint, an
attempt is made (the attempt counter moves) yet the budget is NOT
decremented — the claimed "decremented on every attempt, whether the call
succeeds or raises" is false. -/
theorem budget_no_decrement_on_raise_cex :
    (processOne envBoom "p" "msg" stB1).2.attempts = stB1.attempts + 1
    ∧ (processOne envBoom "p" "msg" stB1).2.budget ≠ stB1.budget - 1 := by
  constructor <;> decide

/-! ### Claim C4: retry and backoff policy of the chat helper -/

/-- C4. `_chat` retries only on errors whose lowercased text contains
`"rate"` or `"quota"`; delays start at 2 and double with a ceiling of 16;
at most 3 attempts are made. Rate errors on the first two attempts
followed by success yield the reply after sleeps `[2, 4]`; three rate
errors exhaust the retries (sleeps `[2, 4, 8]`) and the caller falls back
to the rule-based hint; a non-rate error re-raises immediately (no sleep,
one attempt) and the caller also falls back to the rule-based hint. -/
theorem chat_retry_policy :
    (∀ (env : LLMEnv) (st : LLMSt) (p r m1 m2 : String),
      env.useLLM = true → errIsRate m1 = true → errIsRate m2 = true →
      env.oracle st.oidx p = .err m1 →
      env.oracle (st.oidx + 1) p = .err m2 →
      env.oracle (st.oidx + 2) p = .ok r →
      (pychat env p st).1 = .ok r
      ∧ (pychat env p st).2.sleeps = st.sleeps ++ [2, 4]
      ∧ (pychat env p st).2.attempts = st.attempts + 3)
    ∧ (∀ (env : LLMEnv) (st : LLMSt) (p m1 m2 m3 : String),
      env.useLLM = true → errIsRate m1 = true → errIsRate m2 = true →
      errIsRate m3 = true →
      env.oracle st.oidx p = .err m1 →
      env.oracle (st.oidx + 1) p = .err m2 →
      env.oracle (st.oidx + 2) p = .err m3 →
      (pychat env p st).1 = .error "LLM_RATE_LIMIT"
      ∧ (pychat env p st).2.sleeps = st.sleeps ++ [2, 4, 8]
      ∧ (∀ h : String, st.budget > 0 → (processOne env p h st).1 = offline_hint h))
    ∧ (∀ (env : LLMEnv) (st : LLMSt) (p m : String),
      env.useLLM = true → errIsRate m = false →
      env.oracle st.oidx p = .err m →
      (pychat env p st).1 = .error m
      ∧ (pychat env p st).2.sleeps = st.sleeps
      ∧ (pychat env p st).2.attempts = st.attempts + 1
      ∧ (∀ h : String, st.budget > 0 → (processOne env p h st).1 = offline_hint h))
    ∧ (∀ (o : Oracle) (st : LLMSt) (p m : String), errIsRate m = true →
      (∀ i, i < 6 → o (st.oidx + i) p = .err m) →
      (chatGo o p 6 2 st).2.sleeps = st.sleeps ++ [2, 4, 8, 16, 16, 16]) := by
  refine ⟨?_, ?_, ?_, ?_⟩
  · intro env st p r m1 m2 hU h1r h2r h0 h1 h2
    unfold pychat
    simp only [hU, if_true]
    unfold chatGo
    simp only [h0, h1r, if_true]
    unfold chatGo
    simp only [h1, h2r, if_true]
    unfold chatGo
    simp only [h2]
    refine ⟨?_, ?_, ?_⟩ <;> first | trivial | simp
  · intro env st p m1 m2 m3 hU h1r h2r h3r h0 h1 h2
    have hkey : (pychat env p st).1 = .error "LLM_RATE_LIMIT"
        ∧ (pychat env p st).2.sleeps = st.sleeps ++ [2, 4, 8] := by
      unfold pychat
      simp only [hU, if_true]
      unfold chatGo
      simp only [h0, h1r, if_true]
      unfold chatGo
      simp only [h1, h2r, if_true]
      unfold chatGo
      simp only [h2, h3r, if_true]
      unfold chatGo
      exact ⟨rfl, by simp⟩
    refine ⟨hkey.1, hkey.2, ?_⟩
    intro h hb
    unfold processOne
    rw [if_pos hb]
    cases hc : (pychat env p st).1 with
    | ok s => rw [hkey.1] at hc; exact absurd hc (by simp)
    | error e => rfl
  · intro env st p m hU hnr h0
    have hkey : (pychat env p st).1 = .error m
        ∧ (pychat env p st).2.sleeps = st.sleeps
        ∧ (pychat env p st).2.attempts = st.attempts + 1 := by
      unfold pychat
      simp only [hU, if_true]
      unfold chatGo
      simp only [h0, hnr, Bool.false_eq_true, if_false]
      refine ⟨?_, ?_, ?_⟩ <;> trivial
    refine ⟨hkey.1, hkey.2.1, hkey.2.2, ?_⟩
    intro h hb
    unfold processOne
    rw [if_pos hb]
    cases hc : (pychat env p st).1 with
    | ok s => rw [hkey.1] at hc; exact absurd hc (by simp)
    | error e => rfl
  · intro o st p m hr hall
    have h0 := hall 0 (by norm_num)
    have h1 := hall 1 (by norm_num)
    have h2 := hall 2 (by norm_num)
    have h3 := hall 3 (by norm_num)
    have h4 := hall 4 (by norm_num)
    have h5 := hall 5 (by norm_num)
    rw [Nat.add_zero] at h0
    unfold chatGo
    simp only [h0, hr, if_true]
    unfold chatGo
    simp only [h1, hr, if_true]
    unfold chatGo
    simp only [h2, hr, if_true]
    unfold chatGo
    simp only [show st.oidx + 1 + 1 + 1 = st.oidx + 3 from by omega, h3, hr, if_true]
    unfold chatGo
    simp only [show st.oidx + 1 + 1 + 1 + 1 = st.oidx + 4 from by omega, h4, hr, if_true]
    unfold chatGo
    simp only [show st.oidx + 1 + 1 + 1 + 1 + 1 = st.oidx + 5 from by omega, h5, hr, if_true]
    unfold chatGo
    simp

/-- C4 witness: the endpoint that rate-limits twice then succeeds yields
the reply with sleeps `[2, 4]` and three attempts. -/
theorem chat_retry_policy_witness :
    (pychat envRate "p" stInit).1 = .ok "Why: shadowing. Fix: rename the variable."
    ∧ (pychat envRate "p" stInit).2.sleeps = stInit.sleeps ++ [2, 4]
    ∧ (pychat envRate "p" stInit).2.attempts = stInit.attempts + 3 :=
  chat_retry_policy.1 envRate stInit "p" "Why: shadowing. Fix: rename the variable."
    "Rate limit reached" "quota exceeded for today"
    (by decide) (by decide) (by decide) rfl rfl rfl

/-! ### Claim C5: suggestion order and totality -/

lemma processIssues_types (env : LLMEnv) (f : String) :
    ∀ (l : List PylintIssue) (st : LLMSt),
      ((processIssues env f l st).1).map (fun s => s.type)
        = List.replicate l.length "pylint" := by
  intro l
  induction l with
  | nil => intro st; simp [processIssues]
  | cons i rest ih =>
    intro st
    simp [processIssues, ih, List.replicate_succ]

lemma pylintPhase_types (env : LLMEnv) (N : ℕ) :
    ∀ (l : List PylintEntry) (st : LLMSt),
      ((pylintPhase env N l st).1).map (fun s => s.type)
        = List.replicate ((l.map (fun e => min N e.issues.length)).sum) "pylint" := by
  intro l
  induction l with
  | nil => intro st; simp [pylintPhase]
  | cons e rest ih =>
    intro st
    unfold pylintPhase
    dsimp
    rw [List.map_append, processIssues_types, ih, List.length_take,
      List.replicate_add]

lemma banditPhase_types (env : LLMEnv) :
    ∀ (l : List BanditIssue) (st : LLMSt),
      ((banditPhase env l st).1).map (fun s => s.type)
        = List.replicate l.length "bandit" := by
  intro l
  induction l with
  | nil => intro st; simp [banditPhase]
  | cons i rest ih =>
    intro st
    simp [banditPhase, ih, List.replicate_succ]

lemma radonItems_types (env : LLMEnv) (f : String) :
    ∀ (l : List RadonItem) (st : LLMSt),
      ((radonItems env f l st).1).map (fun s => s.type)
        = List.replicate l.length "radon" := by
  intro l
  induction l with
  | nil => intro st; simp [radonItems]
  | cons i rest ih =>
    intro st
    simp [radonItems, ih, List.replicate_succ]

lemma radonPhase_types (env : LLMEnv) :
    ∀ (l : List (String × List RadonItem)) (st : LLMSt),
      ((radonPhase env l st).1).map (fun s => s.type)
        = List.replicate ((l.map (fun p => min 2 p.2.length)).sum) "radon" := by
  intro l
  induction l with
  | nil => intro st; simp [radonPhase]
  | cons e rest ih =>
    intro st
    obtain ⟨f, items⟩ := e
    unfold radonPhase
    dsimp
    rw [List.map_append, radonItems_types, ih, List.length_take,
      List.replicate_add]

/-- C5. The reasoning pass emits, in order: one `"pylint"` suggestion per
iterated lint finding (the issue list of each file truncated to the
`max_llm_calls` value), then one `"bandit"` suggestion per security
finding (at most 3), then one `"radon"` suggestion per complexity item
(at most 2 items for each of at most 3 files) — for every endpoint
behaviour and budget, so no iterated finding is dropped even when the
model call raises, and each finding yields exactly one suggestion. -/
theorem suggestions_order_and_totality (env : LLMEnv) (analysis : AnalysisIn)
    (N : ℕ) (st0 : LLMSt) :
    ((reason_over_findings env analysis N st0).1).map (fun s => s.type)
      = List.replicate
          ((analysis.pylint.map (fun e => min N e.issues.length)).sum) "pylint"
        ++ List.replicate (min 3 analysis.bandit_results.length) "bandit"
        ++ List.replicate
            (((analysis.radon.take 3).map (fun p => min 2 p.2.length)).sum) "radon"
      ∧ (reason_over_findings env analysis N st0).1.length
        = (analysis.pylint.map (fun e => min N e.issues.length)).sum
          + min 3 analysis.bandit_results.length
          + (((analysis.radon.take 3).map (fun p => min 2 p.2.length)).sum) := by
  have hmap : ((reason_over_findings env analysis N st0).1).map (fun s => s.type)
      = List.replicate
          ((analysis.pylint.map (fun e => min N e.issues.length)).sum) "pylint"
        ++ List.replicate (min 3 analysis.bandit_results.length) "bandit"
        ++ List.replicate
            (((analysis.radon.take 3).map (fun p => min 2 p.2.length)).sum) "radon" := by
    unfold reason_over_findings
    simp [pylintPhase_types, banditPhase_types, radonPhase_types,
      List.length_take]
  refine ⟨hmap, ?_⟩
  have hlen := congrArg List.length hmap
  simp at hlen
  simp only [List.map_take] at hlen ⊢
  omega

/-! ### Claim C6: analyzer parse fault tolerance -/

/-- C6. A JSON parse failure (`parse _ = none` models a `json.loads`
exception) degrades to an empty result for that analyzer only: `run_pylint`
records `[]` as the issue list of the affected file while still emitting
one record per file in order, `run_bandit` returns
`{"results": []}`, and `run_radon_complexity` returns `{}`; empty tool
output is coerced to `"[]"`/`"{}"` first, so it parses to an empty
result; no failure aborts the run (the runners are total). -/
theorem analyzer_parse_fault_tolerance :
    (∀ (parse : String → Option PyJson) (outputs : List (String × String)),
      (run_pylint parse outputs).length = outputs.length)
    ∧ (∀ (parse : String → Option PyJson) (outputs : List (String × String))
        (i : ℕ) (f out : String), outputs[i]? = some (f, out) →
      (run_pylint parse outputs)[i]? = some (f, pylintIssuesOf parse out))
    ∧ (∀ (parse : String → Option PyJson) (out : String),
      parse (orElseStr out "[]") = none → pylintIssuesOf parse out = .arr [])
    ∧ (∀ (parse : String → Option PyJson) (out : String),
      parse (orElseStr out "\x7b\x7d") = none →
      run_bandit parse out = .obj [("results", .arr [])])
    ∧ (∀ (parse : String → Option PyJson) (out : String),
      parse (orElseStr out "\x7b\x7d") = none →
      run_radon_complexity parse out = .obj [])
    ∧ (∀ parse : String → Option PyJson, parse "[]" = some (.arr []) →
      pylintIssuesOf parse "" = .arr [])
    ∧ (∀ parse : String → Option PyJson, parse "\x7b\x7d" = some (.obj []) →
      run_bandit parse "" = .obj [] ∧ run_radon_complexity parse "" = .obj []) := by
  refine ⟨?_, ?_, ?_, ?_, ?_, ?_, ?_⟩
  · intro parse outputs
    simp [run_pylint]
  · intro parse outputs i f out hi
    unfold run_pylint
    rw [List.getElem?_map, hi]
    rfl
  · intro parse out h
    unfold pylintIssuesOf
    rw [h]
  · intro parse out h
    unfold run_bandit
    rw [h]
  · intro parse out h
    unfold run_radon_complexity
    rw [h]
  · intro parse h
    unfold pylintIssuesOf
    show (match parse "[]" with | some j => j | none => PyJson.arr []) = PyJson.arr []
    rw [h]
  · intro parse h
    constructor
    · unfold run_bandit
      show (match parse "\x7b\x7d" with
            | some j => j
            | none => PyJson.obj [("results", PyJson.arr [])]) = PyJson.obj []
      rw [h]
    · unfold run_radon_complexity
      show (match parse "\x7b\x7d" with | some j => j | none => PyJson.obj []) = PyJson.obj []
      rw [h]

/-- C6 witness: with a stub parser that only understands `"[]"`/`"{}"`,
the malformed first file gets an empty issue list, the empty-output second
file parses to an empty list, and bandit degrades to
`{"results": []}` on malformed output. -/
theorem analyzer_parse_fault_tolerance_witness :
    (run_pylint parseStub outputsBad)[0]? = some ("a.py", PyJson.arr [])
    ∧ (run_pylint parseStub outputsBad)[1]? = some ("b.py", PyJson.arr [])
    ∧ run_bandit parseStub "totally not json" = PyJson.obj [("results", PyJson.arr [])] := by
  refine ⟨?_, ?_, ?_⟩
  · have h2 := analyzer_parse_fault_tolerance.2.1 parseStub outputsBad 0 "a.py" "not json" rfl
    have h3 := analyzer_parse_fault_tolerance.2.2.1 parseStub "not json" rfl
    rw [h2, h3]
  · have h2 := analyzer_parse_fault_tolerance.2.1 parseStub outputsBad 1 "b.py" "" rfl
    have h6 := analyzer_parse_fault_tolerance.2.2.2.2.2.1 parseStub rfl
    rw [h2, h6]
  · exact analyzer_parse_fault_tolerance.2.2.2.1 parseStub "totally not json" rfl

/-! ### Claim C7: two-tier PDF generation -/

/-- C7. Document generation always tries the Unicode tier first: when a
font is found and the Unicode rendering succeeds, its result is returned
directly; any exception in the Unicode tier — including the forced
"no font found" error — triggers exactly one fresh fallback rendering;
a fallback failure propagates its own error (there is no third tier); and
every successful result is the relative path
`reports/devmate_report_<digits>.pdf`. -/
theorem pdf_two_tier_fallback :
    (∀ (env : RenderEnv) (t : ℕ) (p : String), env.fontPath = some p →
      env.uniOutcome = .ok () → generate_pdf_report env t = .ok (reportPath t))
    ∧ (∀ (env : RenderEnv) (t : ℕ) (e : String), env.uniOutcome = .error e →
      generate_pdf_report env t
        = (match env.fbOutcome with
           | .ok _ => .ok (reportPath t)
           | .error e' => .error e'))
    ∧ (∀ (env : RenderEnv) (t : ℕ), env.fontPath = none →
      generate_pdf_report env t
        = (match env.fbOutcome with
           | .ok _ => .ok (reportPath t)
           | .error e' => .error e'))
    ∧ (∀ (env : RenderEnv) (t : ℕ) (e e' : String), env.uniOutcome = .error e →
      env.fbOutcome = .error e' → generate_pdf_report env t = .error e')
    ∧ (∀ (env : RenderEnv) (t : ℕ) (s : String),
      generate_pdf_report env t = .ok s → ∃ n : ℕ, s = reportPath n) := by
  refine ⟨?_, ?_, ?_, ?_, ?_⟩
  · intro env t p hf hu
    unfold generate_pdf_report
    rw [hf, hu]
  · intro env t e hu
    unfold generate_pdf_report
    cases hf : env.fontPath with
    | some p => rw [hu]
    | none => rfl
  · intro env t hf
    unfold generate_pdf_report
    rw [hf]
  · intro env t e e' hu hb
    unfold generate_pdf_report
    cases hf : env.fontPath with
    | some p => rw [hu, hb]
    | none => rw [hb]
  · intro env t s h
    unfold generate_pdf_report at h
    cases hf : env.fontPath with
    | some p =>
      rw [hf] at h
      cases hu : env.uniOutcome with
      | ok u =>
        rw [hu] at h
        exact ⟨t, (Except.ok.inj h).symm⟩
      | error e =>
        rw [hu] at h
        cases hb : env.fbOutcome with
        | ok u => rw [hb] at h; exact ⟨t, (Except.ok.inj h).symm⟩
        | error e' => rw [hb] at h; exact absurd h (by simp)
    | none =>
      rw [hf] at h
      cases hb : env.fbOutcome with
      | ok u => rw [hb] at h; exact ⟨t, (Except.ok.inj h).symm⟩
      | error e' => rw [hb] at h; exact absurd h (by simp)

/-- C7 witness: a Unicode tier that raises falls through to a succeeding
fallback tier and still returns the `reports/devmate_report_<digits>.pdf`
relative path (digit-ness of the timestamp part checked concretely). -/
theorem pdf_two_tier_fallback_witness :
    generate_pdf_report envPdfFallback 1730 = .ok (reportPath 1730)
    ∧ (Nat.repr 1730).toList.all Char.isDigit = true := by
  constructor
  · have h := pdf_two_tier_fallback.2.1 envPdfFallback 1730 "font blew up" rfl
    rw [h]
    rfl
  · decide

/-! ### Claim C8: sanitization and rendering modes -/

lemma sanitize_chars_le (v : PyVal) (c : Char) (hc : c ∈ (sanitize v).toList) :
    c.toNat ≤ 0xFF := by
  have h3 : (sanitize v).toList
      = (sanitizeText v).toList.filter (fun c => c.toNat ≤ 0xFF) := rfl
  rw [h3] at hc
  exact of_decide_eq_true (List.mem_filter.mp hc).2

lemma codeTexts_map_snd (mode : Bool) :
    ∀ (cs : List String) (i : ℕ),
      (codeTexts mode i cs).map (fun p => p.2) = codeSndTexts i cs := by
  intro cs
  induction cs with
  | nil => intro i; rfl
  | cons c rest ih =>
    intro i
    simp [codeTexts, codeSndTexts, ih (i + 1)]

lemma codeTexts_mem (mode : Bool) :
    ∀ (cs : List String) (i : ℕ) (p : String × String), p ∈ codeTexts mode i cs →
      (∃ j : ℕ, p.2 = "💡 Code Suggestion " ++ Nat.repr j ++ ":")
      ∨ (∃ s : String, p.2 = sanitize (.str s)) := by
  intro cs
  induction cs with
  | nil => intro i p hp; simp [codeTexts] at hp
  | cons c rest ih =>
    intro i p hp
    simp only [codeTexts, List.mem_cons] at hp
    rcases hp with h | h | h
    · exact Or.inl ⟨i, by rw [h]⟩
    · exact Or.inr ⟨c, by rw [h]⟩
    · exact ih (i + 1) p h

/-- C8 (amended). Every text field passed to the document — the title,
the meta block, the section headers, the file/line sub-lines, the issue
lines, the suggestion bodies, the fenced code blocks, the
no-code placeholder, and the execution-log page — goes through
`sanitize`, which strips exactly the characters above U+00FF and keeps
the rest in order, the same lossy single-byte filter in BOTH rendering
modes (the mode flag only selects the font; emoji are dropped, not
transliterated), with ONE exception: the `"💡 Code Suggestion N:"` label
(`reporter.py` line 115) is passed to the document unsanitized in both
modes, so its emoji escapes the stripping. There is no ASCII-only
stripping in fallback mode. -/
theorem sanitize_scope_and_modes :
    (∀ (mode : Bool) (repo t : String),
      (renderHeaderTexts mode repo t).map (fun p => p.2)
        = [sanitize (.str "DevMate – AI Multi-Agent Code Review Report"),
           sanitize (.str ("Repository: " ++ repo ++ "\nGenerated on: " ++ t))])
    ∧ (∀ (repo t : String),
      (renderHeaderTexts true repo t).map (fun p => p.1) = ["Auto", "Auto"]
      ∧ (renderHeaderTexts false repo t).map (fun p => p.1)
          = ["Helvetica", "Helvetica"])
    ∧ (∀ (mode : Bool) (stype file line msg body : String) (codes : List String),
      (renderSectionTexts mode stype file line msg body codes).map (fun p => p.2)
        = sectionSndTexts stype file line msg body codes)
    ∧ (∀ (mode : Bool) (stype file line msg body : String) (codes : List String),
      ∀ p ∈ renderSectionTexts mode stype file line msg body codes,
        (∀ c ∈ p.2.toList, c.toNat ≤ 0xFF)
        ∨ ∃ i : ℕ, p.2 = "💡 Code Suggestion " ++ Nat.repr i ++ ":")
    ∧ (∀ i : ℕ,
      ∃ c ∈ ("💡 Code Suggestion " ++ Nat.repr i ++ ":").toList, 0xFF < c.toNat)
    ∧ (∀ (mode : Bool) (log : String),
      (renderLogTexts mode log).map (fun p => p.2)
        = [sanitize (.str "🖥️ Full CrewAI Execution Log"), sanitize (.str log)])
    ∧ (∀ v : PyVal,
      (sanitize v).toList = (sanitizeText v).toList.filter (fun c => c.toNat ≤ 0xFF))
    ∧ sanitize (.str "hi😀") = "hi" := by
  refine ⟨?_, ?_, ?_, ?_, ?_, ?_, ?_, ?_⟩
  · intro mode repo t
    cases mode <;> rfl
  · intro repo t
    exact ⟨rfl, rfl⟩
  · intro mode stype file line msg body codes
    unfold renderSectionTexts sectionSndTexts
    by_cases hb : body = "" <;> by_cases hcs : codes.isEmpty <;>
      simp [hb, hcs, codeTexts_map_snd]
  · intro mode stype file line msg body codes p hp
    unfold renderSectionTexts at hp
    simp only [List.mem_cons, List.mem_append] at hp
    have hsan : ∀ s : String, p.2 = sanitize (.str s) →
        ∀ c ∈ p.2.toList, c.toNat ≤ 0xFF := by
      intro s hs c hc
      rw [hs] at hc
      exact sanitize_chars_le _ _ hc
    rcases hp with h | h | h | h
    · exact Or.inl (hsan _ (by rw [h]))
    · exact Or.inl (hsan _ (by rw [h]))
    · exact Or.inl (hsan _ (by rw [h]))
    rcases h with h | h
    · split at h
      · simp at h
      · simp at h
        exact Or.inl (hsan _ (by rw [h]))
    · split at h
      · simp at h
        exact Or.inl (hsan _ (by rw [h]))
      · rcases codeTexts_mem mode codes 1 p h with ⟨j, hj⟩ | ⟨s, hs⟩
        · exact Or.inr ⟨j, hj⟩
        · exact Or.inl (hsan _ hs)
  · intro i
    refine ⟨'💡', ?_, by decide⟩
    show '💡' ∈ ("💡 Code Suggestion " ++ Nat.repr i ++ ":").data
    rw [String.data_append, String.data_append]
    exact List.mem_append.mpr (Or.inl (List.mem_append.mpr (Or.inl (by decide))))
  · intro mode log
    cases mode <;> rfl
  · intro v
    rfl
  · decide

/-- C8 witness: the theorem applied to a concrete fallback-mode section —
the emitted issue line is within the single-byte range kept by
`sanitize`. -/
theorem sanitize_scope_and_modes_witness :
    (∀ c ∈ (sanitize (.str "Issue: bad code")).toList, c.toNat ≤ 0xFF)
    ∨ ∃ i : ℕ,
        sanitize (.str "Issue: bad code") = "💡 Code Suggestion " ++ Nat.repr i ++ ":" :=
  sanitize_scope_and_modes.2.2.2.1 false "pylint" "a.py" "3" "bad code" "" []
    ("Helvetica", sanitize (.str "Issue: bad code")) (by decide)

/-- C8 counterexample: in ASCII/Helvetica fallback mode the emitted meta
text still contains the non-ASCII character `é` (U+00E9 is within the
single-byte range that `sanitize` keeps in every mode), and the
code-suggestion label is emitted with its emoji (above U+00FF) intact —
so fallback mode neither keeps "only ASCII characters" nor sanitizes
every text field as claimed. -/
theorem sanitize_ascii_mode_cex :
    ((renderHeaderTexts false "http://é.example" "2024").map (fun p => p.2)).any
      (fun s => s.toList.any (fun c => decide (127 < c.toNat))) = true
    ∧ ((renderSectionTexts false "pylint" "a.py" "3" "bad code" "fix it"
          ["x = 1"]).map (fun p => p.2)).any
      (fun s => s.toList.any (fun c => decide (0xFF < c.toNat))) = true := by
  constructor <;> decide

/-! ### Claim C9: the two-phase record write -/

/-- C9. A run whose analysis succeeds first commits a record with the
placeholder path `"Generating..."`, then commits the updated record: on
rendering failure the same record with the marker
`"Error generating PDF"` (never deleted), on success the final relative
document path; either way exactly one record is appended. -/
theorem record_two_phase_write (env : AppEnv) (db : List AnalysisRecord)
    (repoUrl : String) (v : PyVal) (sc : ℚ)
    (hr : pyStripWs repoUrl ≠ "")
    (ha : env.analysisResult = .ok v)
    (hs : extract_score v = some sc) :
    (index_post env repoUrl db).2.length = 2
    ∧ (index_post env repoUrl db).2[0]?
        = some (db ++ [⟨pyStripWs repoUrl, sc, "Generating..."⟩])
    ∧ (index_post env repoUrl db).2[1]? = some (index_post env repoUrl db).1
    ∧ (index_post env repoUrl db).1.length = db.length + 1
    ∧ (∀ e, env.pdfResult = .error e →
        (index_post env repoUrl db).1
          = db ++ [⟨pyStripWs repoUrl, sc, "Error generating PDF"⟩])
    ∧ (∀ p, env.pdfResult = .ok p →
        (index_post env repoUrl db).1
          = db ++ [⟨pyStripWs repoUrl, sc, stripStatic p⟩]) := by
  unfold index_post
  rw [if_neg hr, ha]
  dsimp only
  rw [hs]
  cases hp : env.pdfResult with
  | ok p =>
    refine ⟨rfl, rfl, rfl, by simp, ?_, ?_⟩
    · intro e he
      exact absurd he (by simp)
    · intro p' hp'
      rw [Except.ok.inj hp']
  | error e =>
    refine ⟨rfl, rfl, rfl, by simp, ?_, ?_⟩
    · intro e' _
      rfl
    · intro p' hp'
      exact absurd hp' (by simp)

/-- C9 witness: a concrete failed-rendering run leaves exactly the
error-marker record. -/
theorem record_two_phase_write_witness :
    (index_post appEnvPdfFail "https://github.com/x/y" []).2.length = 2
    ∧ (index_post appEnvPdfFail "https://github.com/x/y" []).1
        = [⟨pyStripWs "https://github.com/x/y", 9, "Error generating PDF"⟩] := by
  have h := record_two_phase_write appEnvPdfFail [] "https://github.com/x/y"
    (.str "Final score: 9/10") 9 (by decide) rfl (by
      show some (extract_score_str "Final score: 9/10") = some 9
      have hx : extract_score_h "Final score: 9/10" = 900 := by decide
      unfold extract_score_str
      rw [hx]
      norm_num)
  exact ⟨h.1, by simpa using h.2.2.2.2.1 "PDF failure" rfl⟩

end DevMate
